import Mathlib

/-!
Shallow embedding of the short-video platform's storage layer and the HTTP
route handlers that the specification describes: the in-memory storage
(`MemStorage` in the source), the database-backed comment listing, and the
route handlers for fetching a video, following a user, and serving a random
ad. Machine numbers that hold bookkeeping counters are modelled as `Int`
(JavaScript numbers under the operations used here), identifiers and
timestamps as `Nat`, and nullable columns as `Option`.
-/

namespace VideoApp

/-- Minimal author projection attached to videos and comments in responses. -/
structure UserSummary where
  id : Nat
  username : String
  name : Option String
  avatar : Option String
deriving Repr, DecidableEq

/-- A row of the `users` table. -/
structure User where
  id : Nat
  username : String
  name : Option String
  email : Option String
  bio : Option String
  avatar : Option String
  followersCount : Int
  followingCount : Int
deriving Repr, DecidableEq

/-- A row of the `videos` table. -/
structure Video where
  id : Nat
  userId : Nat
  title : String
  description : Option String
  videoUrl : String
  thumbnailUrl : Option String
  duration : Int
  views : Int
  likes : Int
  dislikes : Int
  commentsCount : Int
  isPrivate : Bool
  createdAt : Option Nat
deriving Repr, DecidableEq

/-- A row of the `comments` table; `parentId = none` means a top-level comment. -/
structure Comment where
  id : Nat
  videoId : Nat
  userId : Nat
  content : String
  likes : Int
  parentId : Option Nat
  createdAt : Option Nat
deriving Repr, DecidableEq

/-- A row of the `follows` table. -/
structure Follow where
  id : Nat
  followerId : Nat
  followingId : Nat
  createdAt : Option Nat
deriving Repr, DecidableEq

/-- A row of the `ads` table. -/
structure Ad where
  id : Nat
  title : String
  videoUrl : String
  brandName : String
deriving Repr, DecidableEq

/-- A row of the `ad_views` table. -/
structure AdView where
  id : Nat
  userId : Option Nat
  sessionId : String
  adId : Nat
  viewedAt : Option Nat
  viewedDate : String
deriving Repr, DecidableEq

/-- A video joined with its author projection (the `VideoWithUser` shape). -/
structure VideoWithUser where
  video : Video
  user : UserSummary
deriving Repr, DecidableEq

/-- A reply joined with its author projection. -/
structure ReplyWithUser where
  comment : Comment
  user : UserSummary
deriving Repr, DecidableEq

/-- A top-level comment joined with its author projection and its reply list
(the two-level `CommentWithUser` tree the listing endpoint returns). -/
structure CommentWithUser where
  comment : Comment
  user : UserSummary
  replies : List ReplyWithUser
deriving Repr, DecidableEq

/-- The whole in-memory store: the six tables plus the id counters the
constructor sets up (each starts at 1 on an empty database). -/
structure MemStorage where
  users : List User
  videos : List Video
  comments : List Comment
  follows : List Follow
  ads : List Ad
  adViews : List AdView
  userIdCounter : Nat
  videoIdCounter : Nat
  commentIdCounter : Nat
  followIdCounter : Nat
  adViewIdCounter : Nat
deriving Repr, DecidableEq

/-- The store of a fresh `MemStorage` built over an empty `db.json`. -/
def emptyStorage : MemStorage :=
  { users := [], videos := [], comments := [], follows := [], ads := [], adViews := []
    userIdCounter := 1, videoIdCounter := 1, commentIdCounter := 1
    followIdCounter := 1, adViewIdCounter := 1 }

/-- Apply `f` to the first element satisfying `p`, leaving the rest unchanged.
This is the effect of `arr.find(p)` followed by a mutation of the found object. -/
def updateFirst (p : α → Bool) (f : α → α) : List α → List α
  | [] => []
  | x :: xs => if p x then f x :: xs else x :: updateFirst p f xs

/-- Timestamp key used by every comparator in the source:
`a.createdAt ? new Date(a.createdAt).getTime() : 0`. -/
def dateKey (d : Option Nat) : Nat := d.getD 0

/-- The author projection `{ id, username, name, avatar }`. -/
def userSummaryOf (u : User) : UserSummary :=
  { id := u.id, username := u.username, name := u.name, avatar := u.avatar }

/-- The sentinel author substituted when a user record is missing. -/
def unknownUser : UserSummary :=
  { id := 0, username := "unknown", name := none, avatar := none }

/-- The `users.find(u => u.id === id)` lookup. -/
def findUser (s : MemStorage) (id : Nat) : Option User :=
  s.users.find? (fun u => u.id == id)

/-- The `videos.find(v => v.id === id)` lookup (`MemStorage.getVideo`). -/
def getVideo (s : MemStorage) (id : Nat) : Option Video :=
  s.videos.find? (fun v => v.id == id)

/-- The `comments.find(c => c.id === id)` lookup (`MemStorage.getComment`). -/
def getComment (s : MemStorage) (id : Nat) : Option Comment :=
  s.comments.find? (fun c => c.id == id)

/-- `MemStorage.createUser`: fresh id from the counter, both counters zero. -/
def createUser (s : MemStorage) (username : String)
    (name email bio avatar : Option String) : User × MemStorage :=
  let newUser : User :=
    { id := s.userIdCounter, username := username, name := name, email := email
      bio := bio, avatar := avatar, followersCount := 0, followingCount := 0 }
  (newUser, { s with users := s.users ++ [newUser], userIdCounter := s.userIdCounter + 1 })

/-- Guarded decrement used by `deleteUser` and `unfollow`:
`if (u.followersCount > 0) u.followersCount--`. -/
def decFollowers (u : User) : User :=
  if 0 < u.followersCount then { u with followersCount := u.followersCount - 1 } else u

/-- Guarded decrement of the `followingCount` field. -/
def decFollowing (u : User) : User :=
  if 0 < u.followingCount then { u with followingCount := u.followingCount - 1 } else u

/-- `MemStorage.deleteUser`: removes the user, their videos and their comment
rows, walks the follow rows touching the user decrementing the counterparties'
counters (guarded at zero), then purges those follow rows. Note that the
surviving videos' `commentsCount` fields are not touched even though the
deleted user's comment rows are removed. -/
def deleteUser (s : MemStorage) (id : Nat) : Bool × MemStorage :=
  let users1 := s.users.filter (fun u => u.id != id)
  let videos1 := s.videos.filter (fun v => v.userId != id)
  let comments1 := s.comments.filter (fun c => c.userId != id)
  let userFollows := s.follows.filter (fun f => f.followerId == id || f.followingId == id)
  let users2 := userFollows.foldl (fun us f =>
    let usA := if f.followerId == id then
        updateFirst (fun u => u.id == f.followingId) decFollowers us
      else us
    if f.followingId == id then
      updateFirst (fun u => u.id == f.followerId) decFollowing usA
    else usA) users1
  let follows1 := s.follows.filter (fun f => !(f.followerId == id || f.followingId == id))
  (s.users.length != users1.length,
   { s with users := users2, videos := videos1, comments := comments1, follows := follows1 })

/-- `MemStorage.createVideo`: fresh id, all counters zero, `createdAt := now`. -/
def createVideo (s : MemStorage) (userId : Nat) (title : String)
    (description : Option String) (videoUrl : String) (thumbnailUrl : Option String)
    (duration : Int) (isPrivate : Bool) (now : Nat) : Video × MemStorage :=
  let v : Video :=
    { id := s.videoIdCounter, userId := userId, title := title, description := description
      videoUrl := videoUrl, thumbnailUrl := thumbnailUrl, duration := duration
      views := 0, likes := 0, dislikes := 0, commentsCount := 0
      isPrivate := isPrivate, createdAt := some now }
  (v, { s with videos := s.videos ++ [v], videoIdCounter := s.videoIdCounter + 1 })

/-- `MemStorage.incrementVideoViews`: find the video, bump `views`, report success. -/
def incrementVideoViews (s : MemStorage) (id : Nat) : Bool × MemStorage :=
  match s.videos.find? (fun v => v.id == id) with
  | none => (false, s)
  | some _ =>
      let videos1 := updateFirst (fun v => v.id == id)
        (fun v => { v with views := v.views + 1 }) s.videos
      (true, { s with videos := videos1 })

/-- `MemStorage.getVideoWithUser`: join the video with its author; `undefined`
when either the video or the author row is missing. -/
def getVideoWithUser (s : MemStorage) (id : Nat) : Option VideoWithUser :=
  match s.videos.find? (fun v => v.id == id) with
  | none => none
  | some v =>
      match findUser s v.userId with
      | none => none
      | some u => some { video := v, user := userSummaryOf u }

/-- Comparator placing `a` before `b` in the newest-first video ordering
(`(a, b) => dateB - dateA` admits `a` first exactly when its key is ≥). -/
def videoBefore (a b : Video) : Prop := dateKey b.createdAt ≤ dateKey a.createdAt

instance : DecidableRel videoBefore := fun a b => by
  unfold videoBefore; infer_instance

instance : IsTotal Video videoBefore :=
  ⟨fun a b => Nat.le_total (dateKey b.createdAt) (dateKey a.createdAt)⟩

instance : IsTrans Video videoBefore :=
  ⟨fun _ _ _ h1 h2 => Nat.le_trans h2 h1⟩

/-- Comparator placing `a` before `b` in the newest-first comment ordering. -/
def commentDescBefore (a b : Comment) : Prop := dateKey b.createdAt ≤ dateKey a.createdAt

instance : DecidableRel commentDescBefore := fun a b => by
  unfold commentDescBefore; infer_instance

instance : IsTotal Comment commentDescBefore :=
  ⟨fun a b => Nat.le_total (dateKey b.createdAt) (dateKey a.createdAt)⟩

instance : IsTrans Comment commentDescBefore :=
  ⟨fun _ _ _ h1 h2 => Nat.le_trans h2 h1⟩

/-- Comparator placing `a` before `b` in the oldest-first comment ordering. -/
def commentAscBefore (a b : Comment) : Prop := dateKey a.createdAt ≤ dateKey b.createdAt

instance : DecidableRel commentAscBefore := fun a b => by
  unfold commentAscBefore; infer_instance

instance : IsTotal Comment commentAscBefore :=
  ⟨fun a b => Nat.le_total (dateKey a.createdAt) (dateKey b.createdAt)⟩

instance : IsTrans Comment commentAscBefore :=
  ⟨fun _ _ _ h1 h2 => Nat.le_trans h1 h2⟩

/-- The stable newest-first sort of the video array. JavaScript's
`Array.prototype.sort` is stable, so it computes the unique stable order,
which the stable `insertionSort` also computes. -/
def sortVideosDesc (l : List Video) : List Video := l.insertionSort videoBefore

/-- Stable newest-first sort of a comment list. -/
def sortCommentsDesc (l : List Comment) : List Comment := l.insertionSort commentDescBefore

/-- Stable oldest-first sort of a comment list. -/
def sortCommentsAsc (l : List Comment) : List Comment := l.insertionSort commentAscBefore

/-- Build the author projection for a video row, substituting the sentinel
when the user is missing (as `MemStorage.getVideos` does). -/
def videoAuthorOf (s : MemStorage) (v : Video) : UserSummary :=
  match findUser s v.userId with
  | some u => userSummaryOf u
  | none => unknownUser

/-- `MemStorage.getVideos`: sort newest first (stable), slice
`[offset, offset + limit)`, and join each video with its author projection. -/
def getVideos (s : MemStorage) (limit offset : Nat) : List VideoWithUser :=
  (((sortVideosDesc s.videos).drop offset).take limit).map
    (fun v => { video := v, user := videoAuthorOf s v })

/-- `MemStorage.createComment`: push the row (likes 0, `createdAt := now`) and
bump the owning video's `commentsCount` when the video exists. -/
def createComment (s : MemStorage) (videoId userId : Nat) (content : String)
    (parentId : Option Nat) (now : Nat) : Comment × MemStorage :=
  let c : Comment :=
    { id := s.commentIdCounter, videoId := videoId, userId := userId
      content := content, likes := 0, parentId := parentId, createdAt := some now }
  let videos1 := updateFirst (fun v => v.id == videoId)
    (fun v => { v with commentsCount := v.commentsCount + 1 }) s.videos
  (c, { s with
          comments := s.comments ++ [c]
          videos := videos1
          commentIdCounter := s.commentIdCounter + 1 })

/-- `MemStorage.deleteComment`: drop the target and every comment whose
`parentId` is the target, then lower the owning video's `commentsCount` by the
number of removed ids, clamped at zero. -/
def deleteComment (s : MemStorage) (id : Nat) : Bool × MemStorage :=
  match s.comments.find? (fun c => c.id == id) with
  | none => (false, s)
  | some c =>
      let replies := s.comments.filter (fun x => x.parentId == some id)
      let allCommentIds := id :: replies.map (fun r => r.id)
      let comments1 := s.comments.filter (fun x => !(allCommentIds.contains x.id))
      let videos1 := updateFirst (fun v => v.id == c.videoId)
        (fun v =>
          let n : Int := v.commentsCount - allCommentIds.length
          { v with commentsCount := if n < 0 then 0 else n }) s.videos
      (s.comments.length != comments1.length,
       { s with comments := comments1, videos := videos1 })

/-- Attach the author projection to a reply row, sentinel when missing. -/
def mkReply (s : MemStorage) (c : Comment) : ReplyWithUser :=
  match findUser s c.userId with
  | some u => { comment := c, user := userSummaryOf u }
  | none => { comment := c, user := unknownUser }

/-- `MemStorage.getVideoComments`: top-level comments of the video newest
first, each carrying the video's replies to it oldest first, authors joined
with the sentinel fallback. -/
def getVideoComments (s : MemStorage) (videoId : Nat) : List CommentWithUser :=
  let topLevel := sortCommentsDesc
    (s.comments.filter (fun c => c.videoId == videoId && c.parentId == none))
  let replies := s.comments.filter (fun c => c.videoId == videoId && c.parentId != none)
  topLevel.map (fun c =>
    let commentReplies :=
      (sortCommentsAsc (replies.filter (fun r => r.parentId == some c.id))).map (mkReply s)
    match findUser s c.userId with
    | some u => { comment := c, user := userSummaryOf u, replies := commentReplies }
    | none => { comment := c, user := unknownUser, replies := commentReplies })

/-- Oldest-first ordering on joined comment rows, keyed on the comment. -/
def rowAscBefore (a b : Comment × User) : Prop :=
  dateKey a.1.createdAt ≤ dateKey b.1.createdAt

instance : DecidableRel rowAscBefore := fun a b => by
  unfold rowAscBefore; infer_instance

/-- `DatabaseStorage.getVideoComments`: the comment rows are inner-joined with
`users`, so a comment whose author row is missing never reaches the tree. -/
def dbGetVideoComments (s : MemStorage) (videoId : Nat) : List CommentWithUser :=
  let rows := (sortCommentsDesc (s.comments.filter (fun c => c.videoId == videoId))).filterMap
    (fun c => (findUser s c.userId).map (fun u => (c, u)))
  let tops := rows.filter (fun cu => cu.1.parentId == none)
  tops.map (fun cu =>
    let reps := ((rows.filter (fun r => r.1.parentId == some cu.1.id)).insertionSort
        rowAscBefore).map (fun r => { comment := r.1, user := userSummaryOf r.2 : ReplyWithUser })
    { comment := cu.1, user := userSummaryOf cu.2, replies := reps })

/-- Unguarded increment of `followingCount`:
`follower.followingCount = (follower.followingCount || 0) + 1`. -/
def incFollowing (u : User) : User := { u with followingCount := u.followingCount + 1 }

/-- Unguarded increment of `followersCount`. -/
def incFollowers (u : User) : User := { u with followersCount := u.followersCount + 1 }

/-- `MemStorage.follow`: return the existing relation untouched when present,
otherwise push the new row and bump both users' counters. -/
def follow (s : MemStorage) (followerId followingId : Nat) (now : Nat) : Follow × MemStorage :=
  match s.follows.find? (fun f => f.followerId == followerId && f.followingId == followingId) with
  | some f => (f, s)
  | none =>
      let nf : Follow :=
        { id := s.followIdCounter, followerId := followerId
          followingId := followingId, createdAt := some now }
      let users1 := updateFirst (fun u => u.id == followerId) incFollowing s.users
      let users2 := updateFirst (fun u => u.id == followingId) incFollowers users1
      (nf, { s with
               follows := s.follows ++ [nf]
               users := users2
               followIdCounter := s.followIdCounter + 1 })

/-- `MemStorage.unfollow`: remove the relation when present and decrement both
counters, each guarded at zero. -/
def unfollow (s : MemStorage) (followerId followingId : Nat) : Bool × MemStorage :=
  match s.follows.find? (fun f => f.followerId == followerId && f.followingId == followingId) with
  | none => (false, s)
  | some _ =>
      let follows1 := s.follows.filter
        (fun f => !(f.followerId == followerId && f.followingId == followingId))
      let users1 := updateFirst (fun u => u.id == followerId) decFollowing s.users
      let users2 := updateFirst (fun u => u.id == followingId) decFollowers users1
      (s.follows.length != follows1.length,
       { s with follows := follows1, users := users2 })

/-- `MemStorage.getAdViewCountForDay`: rows matching `(sessionId, date)`. -/
def getAdViewCountForDay (s : MemStorage) (sessionId date : String) : Nat :=
  (s.adViews.filter (fun av => av.sessionId == sessionId && av.viewedDate == date)).length

/-- `MemStorage.getRandomAd`: `undefined` on an empty table, otherwise the ad
at the drawn index (`Math.floor(Math.random() * length)`). -/
def getRandomAd (s : MemStorage) (draw : Nat) : Option Ad :=
  if s.ads.length == 0 then none else s.ads[draw]?

/-- `MemStorage.createAdView`: push the row with a fresh id, `viewedAt := now`. -/
def createAdView (s : MemStorage) (userId : Option Nat) (sessionId : String)
    (adId : Nat) (viewedDate : String) (now : Nat) : AdView × MemStorage :=
  let av : AdView :=
    { id := s.adViewIdCounter, userId := userId, sessionId := sessionId
      adId := adId, viewedAt := some now, viewedDate := viewedDate }
  (av, { s with adViews := s.adViews ++ [av], adViewIdCounter := s.adViewIdCounter + 1 })

/-- Outcome of `GET /api/ads/random`: 204 ("no ad") or the served ad. -/
inductive AdResponse where
  | noAd
  | served (a : Ad)
deriving Repr, DecidableEq

/-- The `GET /api/ads/random` handler. `luckyDraw` stands for the
`Math.random() < 0.2` outcome and `adDraw` for the index drawn inside
`getRandomAd`; the daily cap check runs before either draw is consulted. -/
def adsRandomHandler (s : MemStorage) (userId : Option Nat) (sessionId today : String)
    (luckyDraw : Bool) (adDraw : Nat) (now : Nat) : AdResponse × MemStorage :=
  let adViewCount := getAdViewCountForDay s sessionId today
  if 5 ≤ adViewCount then (AdResponse.noAd, s)
  else if luckyDraw then
    match getRandomAd s adDraw with
    | some ad => (AdResponse.served ad, (createAdView s userId sessionId ad.id today now).2)
    | none => (AdResponse.noAd, s)
  else (AdResponse.noAd, s)

/-- Outcome of `POST /api/users/:id/follow`. -/
inductive FollowResponse where
  | cannotFollowSelf
  | userNotFound
  | created (f : Follow)
deriving Repr, DecidableEq

/-- The `POST /api/users/:id/follow` handler: reject self-follow before
touching storage, 404 when the followee is missing, otherwise delegate. -/
def followHandler (s : MemStorage) (currentUserId followingId : Nat) (now : Nat) :
    FollowResponse × MemStorage :=
  if followingId == currentUserId then (FollowResponse.cannotFollowSelf, s)
  else
    match findUser s followingId with
    | none => (FollowResponse.userNotFound, s)
    | some _ =>
        let r := follow s currentUserId followingId now
        (FollowResponse.created r.1, r.2)

/-- Outcome of `GET /api/videos/:id`. -/
inductive VideoResponse where
  | notFound
  | forbidden
  | ok (v : VideoWithUser)
deriving Repr, DecidableEq

/-- The requester side of the privacy check:
`!req.user || req.user.id !== video.userId`. -/
def requesterBlocked (requester : Option Nat) (ownerId : Nat) : Bool :=
  match requester with
  | none => true
  | some uid => uid != ownerId

/-- The `GET /api/videos/:id` handler: read the joined video first, run the
privacy check, increment the view counter, and answer with the row as read
before the increment. -/
def getVideoHandler (s : MemStorage) (videoId : Nat) (requester : Option Nat) :
    VideoResponse × MemStorage :=
  match getVideoWithUser s videoId with
  | none => (VideoResponse.notFound, s)
  | some vw =>
      if vw.video.isPrivate && requesterBlocked requester vw.video.userId then
        (VideoResponse.forbidden, s)
      else
        (VideoResponse.ok vw, (incrementVideoViews s videoId).2)

/-- State after creating user 1 on an empty store. -/
def c1StateA : MemStorage := (createUser emptyStorage "alice" none none none none).2

/-- State after also creating user 2. -/
def c1StateB : MemStorage := (createUser c1StateA "bob" none none none none).2

/-- State after user 1 uploads video 1. -/
def c1StateC : MemStorage := (createVideo c1StateB 1 "v" none "u" none 5 false 100).2

/-- State after user 2 comments on video 1: `commentsCount` is 1. -/
def c1StateD : MemStorage := (createComment c1StateC 1 2 "hi" none 101).2

/-- State after user 2 is deleted: their comment row is purged. -/
def c1StateE : MemStorage := (deleteUser c1StateD 2).2

/-- Fixture user 1. -/
def exUser1 : User :=
  { id := 1, username := "alice", name := none, email := none, bio := none
    avatar := none, followersCount := 0, followingCount := 0 }

/-- Fixture user 2. -/
def exUser2 : User := { exUser1 with id := 2, username := "bob" }

/-- Fixture video 1, owned by user 1. -/
def exVideo1 : Video :=
  { id := 1, userId := 1, title := "v", description := none, videoUrl := "u"
    thumbnailUrl := none, duration := 5, views := 0, likes := 0, dislikes := 0
    commentsCount := 0, isPrivate := false, createdAt := some 100 }

/-- Fixture comment constructor. -/
def exComment (i vid uid : Nat) (p : Option Nat) (t : Nat) : Comment :=
  { id := i, videoId := vid, userId := uid, content := "c", likes := 0
    parentId := p, createdAt := some t }

/-- Fixture store with one user and one public video. -/
def exStateVideo : MemStorage :=
  { emptyStorage with users := [exUser1], videos := [exVideo1] }

/-- The joined view of fixture video 1. -/
def exVW : VideoWithUser := { video := exVideo1, user := userSummaryOf exUser1 }

/-- Fixture store with two users and no follows. -/
def exStateUsers : MemStorage := { emptyStorage with users := [exUser1, exUser2] }

/-- Fixture store for C4: video 1 with `commentsCount = 3`, one top-level
comment (id 1) and two replies to it (ids 2, 3). -/
def exStateC4 : MemStorage :=
  { emptyStorage with
      users := [exUser1]
      videos := [{ exVideo1 with commentsCount := 3 }]
      comments := [exComment 1 1 1 none 10, exComment 2 1 1 (some 1) 11,
        exComment 3 1 1 (some 1) 12] }

/-- Fixture store for C3: the spec's four-comment example (C1 at t=10, C2 at
t=20, replies R1 at t=15 and R2 at t=12 under C1). -/
def exStateC3 : MemStorage :=
  { emptyStorage with
      users := [exUser1]
      comments := [exComment 1 1 1 none 10, exComment 2 1 1 none 20,
        exComment 3 1 1 (some 1) 15, exComment 4 1 1 (some 1) 12] }

/-- Fixture store for C9: three videos with timestamps 30, 10, 30 (a tie). -/
def exStateC9 : MemStorage :=
  { emptyStorage with
      users := [exUser1]
      videos := [{ exVideo1 with id := 1, createdAt := some 30 },
                 { exVideo1 with id := 2, createdAt := some 10 },
                 { exVideo1 with id := 3, createdAt := some 30 }] }

/-- The author projection with the sentinel fallback. -/
def userSummaryOrUnknown (s : MemStorage) (uid : Nat) : UserSummary :=
  match findUser s uid with
  | some u => userSummaryOf u
  | none => unknownUser

/-- Fixture store for C5: one comment on video 1 authored by the missing
user 99. -/
def exStateC5 : MemStorage :=
  { emptyStorage with comments := [exComment 7 1 99 none 10] }

/-- Number of persisted Follow rows pointing at `uid`. -/
def followerRows (s : MemStorage) (uid : Nat) : Nat :=
  (s.follows.filter (fun f => f.followingId == uid)).length

/-- Number of persisted Follow rows going out of `uid`. -/
def followingRows (s : MemStorage) (uid : Nat) : Nat :=
  (s.follows.filter (fun f => f.followerId == uid)).length

/-- User rows have pairwise-distinct ids. -/
def UsersUniq (s : MemStorage) : Prop :=
  s.users.Pairwise (fun a b => a.id ≠ b.id)

/-- At most one Follow row exists per `(followerId, followingId)` pair. -/
def FollowsUniq (s : MemStorage) : Prop :=
  s.follows.Pairwise
    (fun a b => ¬(a.followerId = b.followerId ∧ a.followingId = b.followingId))

/-- Every user's counters equal the cardinalities of the Follow relation. -/
def CountersOK (s : MemStorage) : Prop :=
  ∀ u ∈ s.users, u.followersCount = (followerRows s u.id : Int) ∧
    u.followingCount = (followingRows s u.id : Int)

/-- The C6 invariant. -/
def FollowInv (s : MemStorage) : Prop := UsersUniq s ∧ FollowsUniq s ∧ CountersOK s

instance (s : MemStorage) : Decidable (FollowInv s) := by
  unfold FollowInv UsersUniq FollowsUniq CountersOK
  infer_instance

/-- One call of the follow subsystem. -/
inductive FollowOp where
  | doFollow (followerId followingId now : Nat)
  | doUnfollow (followerId followingId : Nat)

/-- Run one follow-subsystem call against the store. -/
def applyFollowOp (s : MemStorage) : FollowOp → MemStorage
  | FollowOp.doFollow a b now => (follow s a b now).2
  | FollowOp.doUnfollow a b => (unfollow s a b).2

/-- Run a sequence of follow-subsystem calls against the store. -/
def applyFollowOps (s : MemStorage) (ops : List FollowOp) : MemStorage :=
  ops.foldl applyFollowOp s

/-- Fixture call trace for C6: follow 1→2, duplicate follow 1→2,
follow 2→1, unfollow 1→2. -/
def exFollowTrace : List FollowOp :=
  [FollowOp.doFollow 1 2 5, FollowOp.doFollow 1 2 6,
   FollowOp.doFollow 2 1 7, FollowOp.doUnfollow 1 2]

/-- Fixture store for C2: one ad and five AdView rows for session "sess" on
day "d1". -/
def exStateAds5 : MemStorage :=
  { emptyStorage with
      ads := [{ id := 1, title := "t", videoUrl := "u", brandName := "b" }]
      adViews :=
        [{ id := 1, userId := none, sessionId := "sess", adId := 1
           viewedAt := some 0, viewedDate := "d1" },
         { id := 2, userId := none, sessionId := "sess", adId := 1
           viewedAt := some 0, viewedDate := "d1" },
         { id := 3, userId := none, sessionId := "sess", adId := 1
           viewedAt := some 0, viewedDate := "d1" },
         { id := 4, userId := none, sessionId := "sess", adId := 1
           viewedAt := some 0, viewedDate := "d1" },
         { id := 5, userId := none, sessionId := "sess", adId := 1
           viewedAt := some 0, viewedDate := "d1" }] }

/-! Helper lemmas about `updateFirst`, `find?` and stable sorting. -/

/-- When at most one element satisfies `p`, updating the first match is the
same as updating every match. -/
theorem updateFirst_eq_map {l : List α} {p : α → Bool} (f : α → α)
    (hu : l.Pairwise (fun a b => p a = true → p b ≠ true)) :
    updateFirst p f l = l.map (fun x => if p x then f x else x) := by
  induction hu with
  | nil => rfl
  | @cons x xs hx hxs ih =>
      by_cases hpx : p x = true
      · have hrest : xs.map (fun y => if p y then f y else y) = xs := by
          have : ∀ y ∈ xs, (if p y then f y else y) = y := by
            intro y hy
            simp [hx y hy hpx]
          rw [List.map_congr_left this]
          exact List.map_id' xs
        simp [updateFirst, hpx, hrest]
      · simp [updateFirst, hpx, ih]

/-- `updateFirst` never changes the length. -/
theorem updateFirst_length (p : α → Bool) (f : α → α) (l : List α) :
    (updateFirst p f l).length = l.length := by
  induction l with
  | nil => rfl
  | cons x xs ih =>
      by_cases hpx : p x = true <;> simp [updateFirst, hpx, ih]

/-- `updateFirst` is the identity when nothing matches. -/
theorem updateFirst_of_forall_neg {l : List α} {p : α → Bool} (f : α → α)
    (h : ∀ x ∈ l, p x ≠ true) : updateFirst p f l = l := by
  induction l with
  | nil => rfl
  | cons x xs ih =>
      have hx := h x (List.mem_cons_self x xs)
      simp [updateFirst, hx, ih fun y hy => h y (List.mem_cons_of_mem x hy)]

/-- When at most one element satisfies `p`, `find?` returns a matching member. -/
theorem find?_eq_some_of_unique {l : List α} {p : α → Bool} {c : α}
    (hu : l.Pairwise (fun a b => p a = true → p b ≠ true)) :
    c ∈ l → p c = true → l.find? p = some c := by
  induction hu with
  | nil => intro hc; cases hc
  | @cons x xs hx _ ih =>
      intro hc hpc
      rcases List.mem_cons.1 hc with rfl | hmem
      · simp [List.find?, hpc]
      · have hpx : p x ≠ true := fun hpx => hx c hmem hpx hpc
        simp only [List.find?]
        rw [Bool.eq_false_iff.2 hpx]
        exact ih hmem hpc

/-- Two members of a list with pairwise-distinct keys that share a key are equal. -/
theorem eq_of_unique_key {l : List α} {key : α → Nat}
    (hu : l.Pairwise (fun a b => key a ≠ key b)) {a b : α} :
    a ∈ l → b ∈ l → key a = key b → a = b := by
  induction hu with
  | nil => intro ha; cases ha
  | @cons x xs hx _ ih =>
      intro ha hb hk
      rcases List.mem_cons.1 ha with rfl | hmema
      · rcases List.mem_cons.1 hb with rfl | hmemb
        · rfl
        · exact absurd hk (hx b hmemb)
      · rcases List.mem_cons.1 hb with rfl | hmemb
        · exact absurd hk.symm (hx a hmema)
        · exact ih hmema hmemb hk

/-- A stable sort leaves the subsequence of elements sharing one key value
untouched: ties keep their insertion order. -/
theorem insertionSort_filter_key {r : α → α → Prop} [DecidableRel r]
    [IsTotal α r] [IsTrans α r] (l : List α) (p : α → Bool)
    (hp : ∀ a b, p a = true → p b = true → r a b) :
    (l.insertionSort r).filter p = l.filter p := by
  have hpair : (l.filter p).Pairwise r :=
    List.pairwise_of_forall_mem_list
      (fun a hma b hmb => hp a b (List.of_mem_filter hma) (List.of_mem_filter hmb))
  have hsub : (l.filter p).Sublist (l.insertionSort r) :=
    List.sublist_insertionSort hpair (List.filter_sublist l)
  have hsub2 : ((l.filter p).filter p).Sublist ((l.insertionSort r).filter p) :=
    List.Sublist.filter p hsub
  have hself : (l.filter p).filter p = l.filter p := by
    rw [List.filter_filter]
    exact List.filter_congr (fun a _ => by cases hpa : p a <;> simp [hpa])
  rw [hself] at hsub2
  have hperm : ((l.insertionSort r).filter p).Perm (l.filter p) :=
    (List.perm_insertionSort r l).filter p
  exact (hsub2.eq_of_length hperm.length_eq.symm).symm

/-! Claim C7: self-follow is rejected by the follow route before any state
change. -/

/-- C7: a follow request whose target id equals the authenticated user's id is
rejected with no change to the store: no Follow row is created and no counter
moves. -/
theorem claim7_selfFollow_rejected (s : MemStorage) (uid now : Nat) :
    followHandler s uid uid now = (FollowResponse.cannotFollowSelf, s) := by
  simp [followHandler]

/-! Claim C1: the persisted comment count versus the comment rows. The code
keeps them in sync across `createComment`/`deleteComment`, but `deleteUser`
purges the deleted user's comment rows without decrementing `commentsCount`
on the surviving videos, contradicting the documented invariant. -/

/-- C1: after `createUser`, `createUser`, `createVideo`, `createComment`,
`deleteUser`, video 1 still records `commentsCount = 1` although zero comment
rows with `videoId = 1` remain: `deleteUser` removes the comment rows without
decrementing the counter, so the claimed invariant fails on this sequence. -/
theorem claim1_commentsCount_stale_after_deleteUser :
    c1StateE.videos.map (fun v => (v.id, v.commentsCount)) = [(1, 1)] ∧
    (c1StateE.comments.filter (fun c => c.videoId == 1)).length = 0 := by
  decide

/-! Claim C2: the random-ad endpoint's daily cap and AdView bookkeeping. -/

/-- Every run of the random-ad handler either answers "no ad" with the store
untouched, or (only below the cap) serves an ad from the table and appends
the corresponding AdView row. -/
theorem adsRandomHandler_split (s : MemStorage) (userId : Option Nat)
    (sessionId today : String) (luckyDraw : Bool) (adDraw now : Nat) :
    adsRandomHandler s userId sessionId today luckyDraw adDraw now = (AdResponse.noAd, s) ∨
    (¬ 5 ≤ getAdViewCountForDay s sessionId today ∧ ∃ a, a ∈ s.ads ∧
      adsRandomHandler s userId sessionId today luckyDraw adDraw now =
        (AdResponse.served a, (createAdView s userId sessionId a.id today now).2)) := by
  unfold adsRandomHandler
  by_cases hcap : 5 ≤ getAdViewCountForDay s sessionId today
  · left; simp [hcap]
  · by_cases hluck : luckyDraw = true
    · cases had : getRandomAd s adDraw with
      | none => left; simp [hcap, hluck, had]
      | some a =>
          right
          refine ⟨hcap, a, ?_, by simp [hcap, hluck, had]⟩
          unfold getRandomAd at had
          by_cases hn : (s.ads.length == 0) = true
          · simp [hn] at had
          · rw [if_neg (by simp [hn])] at had
            exact List.getElem?_mem had
    · left; simp [hcap, hluck]

/-- C2: with 5 or more AdView rows for `(sessionId, today)` the handler
answers "no ad" whatever the draws say; every "no ad" outcome leaves the store
untouched; an ad is served only from the ad table and appends exactly one
AdView row keyed by `(userId, sessionId, adId, today)` while all other tables
stay as they were; the row count grows exactly when an ad is served. -/
theorem claim2_ad_cap_and_view_row (s : MemStorage) (userId : Option Nat)
    (sessionId today : String) (luckyDraw : Bool) (adDraw now : Nat)
    (r : AdResponse × MemStorage)
    (hr : r = adsRandomHandler s userId sessionId today luckyDraw adDraw now) :
    (5 ≤ getAdViewCountForDay s sessionId today → r = (AdResponse.noAd, s)) ∧
    (r.1 = AdResponse.noAd → r.2 = s) ∧
    (∀ a : Ad, r.1 = AdResponse.served a → a ∈ s.ads ∧
      r.2.adViews = s.adViews ++
        [AdView.mk s.adViewIdCounter userId sessionId a.id (some now) today] ∧
      r.2.users = s.users ∧ r.2.videos = s.videos ∧ r.2.comments = s.comments ∧
      r.2.follows = s.follows ∧ r.2.ads = s.ads) ∧
    ((∃ a, r.1 = AdResponse.served a) ↔ r.2.adViews.length = s.adViews.length + 1) := by
  rcases adsRandomHandler_split s userId sessionId today luckyDraw adDraw now with
    hno | ⟨hcap, a, hmem, hserved⟩
  · rw [hno] at hr
    subst hr
    refine ⟨fun _ => rfl, fun _ => rfl, ?_, ?_⟩
    · intro a ha
      simp at ha
    · constructor
      · rintro ⟨a, ha⟩
        simp at ha
      · intro h
        simp at h
  · rw [hserved] at hr
    subst hr
    refine ⟨fun h => absurd h hcap, ?_, ?_, ?_⟩
    · intro h
      simp at h
    · intro b hb
      have hab : a = b := by
        simpa using hb
      subst hab
      exact ⟨hmem, rfl, rfl, rfl, rfl, rfl, rfl⟩
    · constructor
      · intro _
        simp [createAdView]
      · intro _
        exact ⟨a, rfl⟩

/-- Turn pairwise-distinct keys into "at most one element matches `key == k`". -/
theorem pairwise_beq_of_key_unique {l : List α} {key : α → Nat} (k : Nat)
    (hu : l.Pairwise (fun x y => key x ≠ key y)) :
    l.Pairwise (fun x y => (key x == k) = true → (key y == k) ≠ true) :=
  hu.imp (fun hxy hx hy =>
    hxy (by rw [beq_iff_eq] at hx; rw [beq_iff_eq] at hy; rw [hx, hy]))

/-- On a list with pairwise-distinct keys, updating the first `key == k` match
is updating the unique match. -/
theorem updateFirst_key_eq_map {l : List α} {key : α → Nat} (k : Nat) (f : α → α)
    (hu : l.Pairwise (fun x y => key x ≠ key y)) :
    updateFirst (fun x => key x == k) f l = l.map (fun x => if key x == k then f x else x) :=
  updateFirst_eq_map f (pairwise_beq_of_key_unique k hu)

/-- On a list with pairwise-distinct keys, `find?` by a member's key finds it. -/
theorem find?_key_eq_some {l : List α} {key : α → Nat} {c : α}
    (hu : l.Pairwise (fun x y => key x ≠ key y)) (hc : c ∈ l) :
    l.find? (fun x => key x == key c) = some c :=
  find?_eq_some_of_unique (pairwise_beq_of_key_unique (key c) hu) hc (by simp)

/-- On a list with pairwise-distinct keys, filtering by a member's key keeps
exactly that member. -/
theorem filter_key_eq_single {l : List α} {key : α → Nat} {c : α}
    (hu : l.Pairwise (fun x y => key x ≠ key y)) :
    c ∈ l → l.filter (fun x => key x == key c) = [c] := by
  induction hu with
  | nil => intro hc; cases hc
  | @cons x xs hx _ ih =>
      intro hc
      rcases List.mem_cons.1 hc with rfl | hmem
      · have hrest : xs.filter (fun y => key y == key c) = [] :=
          List.filter_eq_nil_iff.2 (fun y hy => by simp [(hx y hy).symm])
        simp [List.filter_cons, hrest]
      · have hxc : (key x == key c) = false := by simp [hx c hmem]
        simp [List.filter_cons, hxc, ih hmem]

/-- Counting a disjunction of two disjoint predicates splits into a sum. -/
theorem countP_or_disjoint {l : List α} {p q : α → Bool}
    (h : ∀ x ∈ l, ¬(p x = true ∧ q x = true)) :
    l.countP (fun x => p x || q x) = l.countP p + l.countP q := by
  induction l with
  | nil => rfl
  | cons x xs ih =>
      have hx := h x (List.mem_cons_self x xs)
      have ihx := ih (fun y hy => h y (List.mem_cons_of_mem x hy))
      cases hpx : p x with
      | true =>
          cases hqx : q x with
          | true => exact absurd ⟨hpx, hqx⟩ hx
          | false => simp [List.countP_cons, hpx, hqx, ihx]; omega
      | false =>
          cases hqx : q x <;> (simp [List.countP_cons, hpx, hqx, ihx]; try omega)

/-! Claim C10: fetching a video increments exactly its view counter and
answers with the pre-increment row. -/

/-- C10: when the joined video read succeeds and the privacy check passes, the
handler answers with the row exactly as read before the increment (so the
reported `views` excludes this request), bumps that video's `views` by one
while changing none of its other fields, leaves every other video untouched,
and leaves every other table and counter untouched. -/
theorem claim10_getVideo_increments_views (s : MemStorage) (videoId : Nat)
    (requester : Option Nat) (vw : VideoWithUser)
    (hvw : getVideoWithUser s videoId = some vw)
    (huniq : s.videos.Pairwise (fun x y => x.id ≠ y.id))
    (hpriv : vw.video.isPrivate = true → requester = some vw.video.userId) :
    (getVideoHandler s videoId requester).1 = VideoResponse.ok vw ∧
    vw.video ∈ s.videos ∧ vw.video.id = videoId ∧
    (getVideoHandler s videoId requester).2.videos =
      s.videos.map (fun v => if v.id == videoId then { v with views := v.views + 1 } else v) ∧
    { vw.video with views := vw.video.views + 1 } ∈ (getVideoHandler s videoId requester).2.videos ∧
    (∀ w ∈ s.videos, w.id ≠ videoId → w ∈ (getVideoHandler s videoId requester).2.videos) ∧
    (getVideoHandler s videoId requester).2.users = s.users ∧
    (getVideoHandler s videoId requester).2.comments = s.comments ∧
    (getVideoHandler s videoId requester).2.follows = s.follows ∧
    (getVideoHandler s videoId requester).2.ads = s.ads ∧
    (getVideoHandler s videoId requester).2.adViews = s.adViews := by
  have hfind : s.videos.find? (fun v => v.id == videoId) = some vw.video := by
    have h := hvw
    unfold getVideoWithUser at h
    split at h
    · cases h
    · rename_i v hf
      split at h
      · cases h
      · cases h
        exact hf
  have hvmem : vw.video ∈ s.videos := List.mem_of_find?_eq_some hfind
  have hvid : vw.video.id = videoId := by
    have h1 := @List.find?_some Video (fun v => v.id == videoId) vw.video s.videos hfind
    simpa using h1
  have hcond : (vw.video.isPrivate && requesterBlocked requester vw.video.userId) = false := by
    by_cases hp : vw.video.isPrivate = true
    · have hreq := hpriv hp
      subst hreq
      simp [requesterBlocked]
    · rw [Bool.not_eq_true] at hp
      rw [hp]
      simp
  have hinc : (incrementVideoViews s videoId).2.videos =
      s.videos.map (fun w => if w.id == videoId then { w with views := w.views + 1 } else w) := by
    simp only [incrementVideoViews, hfind]
    exact updateFirst_key_eq_map videoId _ huniq
  have hstate : (getVideoHandler s videoId requester).2 = (incrementVideoViews s videoId).2 := by
    simp only [getVideoHandler, hvw, hcond]
    simp
  have hresp : (getVideoHandler s videoId requester).1 = VideoResponse.ok vw := by
    simp only [getVideoHandler, hvw, hcond]
    simp
  have hframe : (incrementVideoViews s videoId).2.users = s.users ∧
      (incrementVideoViews s videoId).2.comments = s.comments ∧
      (incrementVideoViews s videoId).2.follows = s.follows ∧
      (incrementVideoViews s videoId).2.ads = s.ads ∧
      (incrementVideoViews s videoId).2.adViews = s.adViews := by
    simp only [incrementVideoViews, hfind]
    simp
  refine ⟨hresp, hvmem, hvid, ?_, ?_, ?_, ?_, ?_, ?_, ?_, ?_⟩
  · rw [hstate]; exact hinc
  · rw [hstate, hinc]
    have heq : { vw.video with views := vw.video.views + 1 } =
        (fun w => if w.id == videoId then { w with views := w.views + 1 } else w) vw.video := by
      simp [hvid]
    rw [heq]
    exact List.mem_map_of_mem _ hvmem
  · intro w hw hwid
    rw [hstate, hinc]
    have : w = (fun x => if x.id == videoId then { x with views := x.views + 1 } else x) w := by
      simp [hwid]
    rw [this]
    exact List.mem_map_of_mem _ hw
  · rw [hstate]; exact hframe.1
  · rw [hstate]; exact hframe.2.1
  · rw [hstate]; exact hframe.2.2.1
  · rw [hstate]; exact hframe.2.2.2.1
  · rw [hstate]; exact hframe.2.2.2.2

/-! Concrete fixture data reused by the witnesses. -/

/-- C10 witness: on the fixture store, the handler answers with the
pre-increment row (`views = 0`) and stores the bumped row (`views = 1`). -/
theorem claim10_witness :
    (getVideoHandler exStateVideo 1 none).1 = VideoResponse.ok exVW ∧
    { exVideo1 with views := 1 } ∈ (getVideoHandler exStateVideo 1 none).2.videos := by
  have h := claim10_getVideo_increments_views exStateVideo 1 none exVW
    (by decide) (by decide) (by decide)
  exact ⟨h.1, h.2.2.2.2.1⟩

/-! Claim C8: `follow` is idempotent. -/

/-- Unfolding of `follow` when the relation does not exist yet. -/
theorem follow_of_find?_none (s : MemStorage) (a b n : Nat)
    (h : s.follows.find? (fun f => f.followerId == a && f.followingId == b) = none) :
    (follow s a b n).1 =
      { id := s.followIdCounter, followerId := a, followingId := b, createdAt := some n } ∧
    (follow s a b n).2.follows = s.follows ++ [(follow s a b n).1] ∧
    (follow s a b n).2.users =
      updateFirst (fun u => u.id == b) incFollowers
        (updateFirst (fun u => u.id == a) incFollowing s.users) ∧
    (follow s a b n).2.videos = s.videos ∧
    (follow s a b n).2.comments = s.comments ∧
    (follow s a b n).2.follows.length = s.follows.length + 1 := by
  simp only [follow, h]
  simp

/-- Unfolding of `follow` when the relation already exists: it is returned and
nothing changes. -/
theorem follow_of_find?_some (s : MemStorage) (a b n : Nat) (f0 : Follow)
    (h : s.follows.find? (fun f => f.followerId == a && f.followingId == b) = some f0) :
    follow s a b n = (f0, s) := by
  simp only [follow, h]

/-- C8: from a state where users `a` and `b` exist and no `(a, b)` relation is
stored, two successive `follow a b` calls leave exactly one `(a, b)` Follow
row, bump `a`'s `followingCount` and `b`'s `followersCount` by one in total,
and the second call returns the row created by the first without touching the
store. -/
theorem claim8_follow_idempotent (s : MemStorage) (a b n1 n2 : Nat) (ua ub : User)
    (huniq : s.users.Pairwise (fun x y => x.id ≠ y.id))
    (hua : ua ∈ s.users) (hub : ub ∈ s.users) (haid : ua.id = a) (hbid : ub.id = b)
    (hab : a ≠ b)
    (hnew : ∀ f ∈ s.follows, ¬(f.followerId = a ∧ f.followingId = b)) :
    ((follow (follow s a b n1).2 a b n2).2 = (follow s a b n1).2) ∧
    ((follow (follow s a b n1).2 a b n2).1 = (follow s a b n1).1) ∧
    ((follow s a b n1).2.follows.filter
        (fun f => f.followerId == a && f.followingId == b)).length = 1 ∧
    (∃ ua1, ua1 ∈ (follow s a b n1).2.users ∧ ua1.id = a ∧
      ua1.followingCount = ua.followingCount + 1 ∧
      ua1.followersCount = ua.followersCount) ∧
    (∃ ub1, ub1 ∈ (follow s a b n1).2.users ∧ ub1.id = b ∧
      ub1.followersCount = ub.followersCount + 1 ∧
      ub1.followingCount = ub.followingCount) := by
  have hnone : s.follows.find? (fun f => f.followerId == a && f.followingId == b) = none := by
    rw [List.find?_eq_none]
    intro f hf
    have hnf := hnew f hf
    simp only [Bool.and_eq_true, beq_iff_eq]
    exact fun hc => hnf ⟨hc.1, hc.2⟩
  obtain ⟨hret, hfl, hus, _, _, _⟩ := follow_of_find?_none s a b n1 hnone
  have hpred : (fun f : Follow => f.followerId == a && f.followingId == b)
      (follow s a b n1).1 = true := by
    rw [hret]
    simp
  have hfind2 : (follow s a b n1).2.follows.find?
      (fun f => f.followerId == a && f.followingId == b) = some (follow s a b n1).1 := by
    rw [hfl, List.find?_append, hnone]
    simp only [Option.none_or]
    exact List.find?_cons_of_pos _ hpred
  have hsecond := follow_of_find?_some (follow s a b n1).2 a b n2 (follow s a b n1).1 hfind2
  refine ⟨by rw [hsecond], by rw [hsecond], ?_, ?_, ?_⟩
  · rw [hfl, List.filter_append]
    have h1 : s.follows.filter (fun f => f.followerId == a && f.followingId == b) = [] :=
      List.filter_eq_nil_iff.2 (fun f hf => by
        have hnf := hnew f hf
        simp only [Bool.and_eq_true, beq_iff_eq, not_and]
        intro h1 h2
        exact hnf ⟨h1, h2⟩)
    rw [h1]
    simp [List.filter_cons, hpred]
  · rw [hus]
    have husers1 : updateFirst (fun u => u.id == a) incFollowing s.users =
        s.users.map (fun u => if u.id == a then incFollowing u else u) :=
      updateFirst_key_eq_map a _ huniq
    have huniq1 : (s.users.map (fun u => if u.id == a then incFollowing u else u)).Pairwise
        (fun x y => x.id ≠ y.id) := by
      rw [List.pairwise_map]
      refine huniq.imp ?_
      intro x y hxy
      by_cases hx : x.id == a <;> by_cases hy : y.id == a <;> simp [incFollowing, hx, hy, hxy]
    have husers2 : updateFirst (fun u => u.id == b) incFollowers
        (s.users.map (fun u => if u.id == a then incFollowing u else u)) =
        (s.users.map (fun u => if u.id == a then incFollowing u else u)).map
          (fun u => if u.id == b then incFollowers u else u) :=
      updateFirst_key_eq_map b _ huniq1
    rw [husers1, husers2]
    refine ⟨(fun u => if u.id == b then incFollowers u else u)
      ((fun u => if u.id == a then incFollowing u else u) ua),
      List.mem_map_of_mem _ (List.mem_map_of_mem _ hua), ?_⟩
    have hia : (ua.id == a) = true := by simp [haid]
    have hib : (ua.id == b) = false := by simp [haid, hab]
    simp [incFollowing, incFollowers, hia, hib, haid, hab, hab.symm]
  · rw [hus]
    have husers1 : updateFirst (fun u => u.id == a) incFollowing s.users =
        s.users.map (fun u => if u.id == a then incFollowing u else u) :=
      updateFirst_key_eq_map a _ huniq
    have huniq1 : (s.users.map (fun u => if u.id == a then incFollowing u else u)).Pairwise
        (fun x y => x.id ≠ y.id) := by
      rw [List.pairwise_map]
      refine huniq.imp ?_
      intro x y hxy
      by_cases hx : x.id == a <;> by_cases hy : y.id == a <;> simp [incFollowing, hx, hy, hxy]
    have husers2 : updateFirst (fun u => u.id == b) incFollowers
        (s.users.map (fun u => if u.id == a then incFollowing u else u)) =
        (s.users.map (fun u => if u.id == a then incFollowing u else u)).map
          (fun u => if u.id == b then incFollowers u else u) :=
      updateFirst_key_eq_map b _ huniq1
    rw [husers1, husers2]
    refine ⟨(fun u => if u.id == b then incFollowers u else u)
      ((fun u => if u.id == a then incFollowing u else u) ub),
      List.mem_map_of_mem _ (List.mem_map_of_mem _ hub), ?_⟩
    have hia : (ub.id == a) = false := by
      simp only [beq_eq_false_iff_ne, ne_eq, hbid]
      exact fun h => hab h.symm
    have hib : (ub.id == b) = true := by simp [hbid]
    simp [incFollowing, incFollowers, hia, hib, hbid, hab, hab.symm]

/-- C8 witness: two `follow 1 2` calls on the two-user fixture create one
relation, one increment each, and the second call is a no-op. -/
theorem claim8_witness :
    ((follow (follow exStateUsers 1 2 7).2 1 2 9).2 = (follow exStateUsers 1 2 7).2) ∧
    ((follow exStateUsers 1 2 7).2.follows.filter
        (fun f => f.followerId == 1 && f.followingId == 2)).length = 1 := by
  have h := claim8_follow_idempotent exStateUsers 1 2 7 9 exUser1 exUser2
    (by decide) (by decide) (by decide) (by decide) (by decide) (by decide)
    (by intro f hf; cases hf)
  exact ⟨h.1, h.2.2.1⟩

/-! Claim C4: the `deleteComment` cascade. -/

/-- Splitting a list length into the part failing a predicate and its count. -/
theorem length_filter_not_add (q : α → Bool) (l : List α) :
    (l.filter (fun x => !(q x))).length + l.countP q = l.length := by
  induction l with
  | nil => rfl
  | cons x xs ih =>
      cases hq : q x <;> simp [List.filter_cons, List.countP_cons, hq] <;> omega

/-- C4: deleting an existing comment removes exactly the target plus the N
comments whose `parentId` is the target id and nothing else, and lowers the
owning video's `commentsCount` by N + 1 clamped at zero, leaving the video's
other fields, the other videos, and every other table untouched. Deleting a
childless comment (a reply in two-level data) is the `N = 0` instance:
one row removed, counter lowered by one. -/
theorem claim4_deleteComment_cascade (s : MemStorage) (c : Comment) (v : Video)
    (hcu : s.comments.Pairwise (fun x y => x.id ≠ y.id))
    (hvu : s.videos.Pairwise (fun x y => x.id ≠ y.id))
    (hc : c ∈ s.comments) (hv : v ∈ s.videos) (hvid : v.id = c.videoId)
    (hself : c.parentId ≠ some c.id) :
    (deleteComment s c.id).1 = true ∧
    (deleteComment s c.id).2.comments =
      s.comments.filter (fun x => !(x.id == c.id || x.parentId == some c.id)) ∧
    (deleteComment s c.id).2.comments.length +
      ((s.comments.filter (fun x => x.parentId == some c.id)).length + 1) =
      s.comments.length ∧
    (∃ v1, v1 ∈ (deleteComment s c.id).2.videos ∧ v1.id = v.id ∧
      v1.commentsCount =
        max 0 (v.commentsCount -
          (((s.comments.filter (fun x => x.parentId == some c.id)).length : Int) + 1)) ∧
      0 ≤ v1.commentsCount ∧
      { v1 with commentsCount := v.commentsCount } = v) ∧
    (∀ w ∈ s.videos, w.id ≠ c.videoId → w ∈ (deleteComment s c.id).2.videos) ∧
    (deleteComment s c.id).2.users = s.users ∧
    (deleteComment s c.id).2.follows = s.follows ∧
    (deleteComment s c.id).2.ads = s.ads ∧
    (deleteComment s c.id).2.adViews = s.adViews := by
  have hfind : s.comments.find? (fun x => x.id == c.id) = some c :=
    find?_key_eq_some hcu hc
  have hmemiff : ∀ x ∈ s.comments,
      ((c.id :: (s.comments.filter (fun y => y.parentId == some c.id)).map
          (fun r => r.id)).contains x.id)
        = (x.id == c.id || x.parentId == some c.id) := by
    intro x hx
    have hcont : (((c.id :: (s.comments.filter (fun y => y.parentId == some c.id)).map
        (fun r => r.id)).contains x.id) = true) ↔
        x.id ∈ c.id :: (s.comments.filter (fun y => y.parentId == some c.id)).map
          (fun r => r.id) := List.elem_iff
    rw [Bool.eq_iff_iff, hcont]
    simp only [List.mem_cons, List.mem_map, List.mem_filter, Bool.or_eq_true, beq_iff_eq]
    constructor
    · rintro (hxc | ⟨r, ⟨hrmem, hrp⟩, hrid⟩)
      · exact Or.inl hxc
      · have hrx : r = x := eq_of_unique_key hcu hrmem hx hrid
        subst hrx
        exact Or.inr hrp
    · rintro (hxc | hxp)
      · exact Or.inl hxc
      · exact Or.inr ⟨x, ⟨hx, hxp⟩, rfl⟩
  have hcountq : s.comments.countP (fun x => x.id == c.id || x.parentId == some c.id) =
      (s.comments.filter (fun x => x.parentId == some c.id)).length + 1 := by
    have hdisj : ∀ x ∈ s.comments,
        ¬((x.id == c.id) = true ∧ (x.parentId == some c.id) = true) := by
      intro x hx ⟨h1, h2⟩
      have hxc : x = c := eq_of_unique_key hcu hx hc (beq_iff_eq.1 h1)
      subst hxc
      exact hself (beq_iff_eq.1 h2)
    rw [countP_or_disjoint hdisj]
    have hone : s.comments.countP (fun x => x.id == c.id) = 1 := by
      rw [List.countP_eq_length_filter]
      rw [filter_key_eq_single hcu hc]
      rfl
    rw [hone, List.countP_eq_length_filter]
    omega
  have hcom : (deleteComment s c.id).2.comments =
      s.comments.filter (fun x =>
        !((c.id :: (s.comments.filter (fun y => y.parentId == some c.id)).map
            (fun r => r.id)).contains x.id)) := by
    simp only [deleteComment, hfind]
  have hcom2 : (deleteComment s c.id).2.comments =
      s.comments.filter (fun x => !(x.id == c.id || x.parentId == some c.id)) := by
    rw [hcom]
    exact List.filter_congr (fun x hx => by rw [hmemiff x hx])
  have hlen : (deleteComment s c.id).2.comments.length +
      ((s.comments.filter (fun x => x.parentId == some c.id)).length + 1) =
      s.comments.length := by
    rw [hcom2, ← hcountq]
    exact length_filter_not_add _ s.comments
  have hvids : (deleteComment s c.id).2.videos =
      s.videos.map (fun w => if w.id == c.videoId then
        { w with commentsCount :=
            if (w.commentsCount -
                ((c.id :: (s.comments.filter (fun y => y.parentId == some c.id)).map
                  (fun r => r.id)).length : Int)) < 0 then 0
            else w.commentsCount -
                ((c.id :: (s.comments.filter (fun y => y.parentId == some c.id)).map
                  (fun r => r.id)).length : Int) }
        else w) := by
    simp only [deleteComment, hfind]
    exact updateFirst_key_eq_map c.videoId _ hvu
  refine ⟨?_, hcom2, hlen, ?_, ?_, ?_, ?_, ?_, ?_⟩
  · have hne : s.comments.length ≠ (deleteComment s c.id).2.comments.length := by omega
    have h1 : (deleteComment s c.id).1 =
        (s.comments.length != (deleteComment s c.id).2.comments.length) := by
      simp only [deleteComment, hfind]
    rw [h1]
    exact bne_iff_ne.2 hne
  · rw [hvids]
    refine ⟨(fun w => if w.id == c.videoId then
        { w with commentsCount :=
            if (w.commentsCount -
                ((c.id :: (s.comments.filter (fun y => y.parentId == some c.id)).map
                  (fun r => r.id)).length : Int)) < 0 then 0
            else w.commentsCount -
                ((c.id :: (s.comments.filter (fun y => y.parentId == some c.id)).map
                  (fun r => r.id)).length : Int) }
        else w) v, List.mem_map_of_mem _ hv, ?_⟩
    have hvb : (v.id == c.videoId) = true := by simp [hvid]
    refine ⟨by simp [hvb], ?_, ?_, by simp [hvb]⟩
    · simp only [hvb, if_true, List.length_cons, List.length_map]
      push_cast
      split_ifs <;> omega
    · simp only [hvb, if_true]
      split_ifs <;> omega
  · intro w hw hwid
    rw [hvids]
    have hwb : (w.id == c.videoId) = false := by simp [hwid]
    have heq : w = (fun x => if x.id == c.videoId then
        { x with commentsCount :=
            if (x.commentsCount -
                ((c.id :: (s.comments.filter (fun y => y.parentId == some c.id)).map
                  (fun r => r.id)).length : Int)) < 0 then 0
            else x.commentsCount -
                ((c.id :: (s.comments.filter (fun y => y.parentId == some c.id)).map
                  (fun r => r.id)).length : Int) }
        else x) w := by
      simp [hwb]
    rw [heq]
    exact List.mem_map_of_mem _ hw
  · simp only [deleteComment, hfind]
  · simp only [deleteComment, hfind]
  · simp only [deleteComment, hfind]
  · simp only [deleteComment, hfind]

/-- C4 witness: deleting top-level comment 1 with two replies removes all
three rows and drops `commentsCount` from 3 to 0. -/
theorem claim4_witness :
    (deleteComment exStateC4 1).1 = true ∧
    (deleteComment exStateC4 1).2.comments.length +
      ((exStateC4.comments.filter
        (fun x => x.parentId == some 1)).length + 1) = exStateC4.comments.length := by
  have h := claim4_deleteComment_cascade exStateC4 (exComment 1 1 1 none 10)
    { exVideo1 with commentsCount := 3 }
    (by decide) (by decide) (by decide) (by decide) (by decide) (by decide)
  exact ⟨h.1, h.2.2.1⟩

/-! Claim C3: the comment-tree shape. -/

/-- Restricting the reply pool of a video to one parent id is one filter. -/
theorem replies_filter_eq (s : MemStorage) (vid pid : Nat) :
    (s.comments.filter (fun c => c.videoId == vid && c.parentId != none)).filter
      (fun r => r.parentId == some pid) =
    s.comments.filter (fun r => r.videoId == vid && r.parentId == some pid) := by
  rw [List.filter_filter]
  apply List.filter_congr
  intro x _
  rcases hp : x.parentId with _ | q
  · simp [hp]
  · by_cases hq : q = pid <;> by_cases hv : (x.videoId == vid) = true <;> simp [hp, hq, hv]

/-- Projecting the tree nodes back to their comments gives the sorted
top-level comments. -/
theorem getVideoComments_map_comment (s : MemStorage) (vid : Nat) :
    (getVideoComments s vid).map (fun n => n.comment) =
      sortCommentsDesc (s.comments.filter
        (fun c => c.videoId == vid && c.parentId == none)) := by
  unfold getVideoComments
  rw [List.map_map]
  refine Eq.trans (List.map_congr_left ?_) (List.map_id' _)
  intro c _
  cases hfu : findUser s c.userId <;> simp [Function.comp, hfu]

/-- Every node of the tree is a top-level comment of the video carrying
exactly the video's replies to it, oldest first. -/
theorem getVideoComments_node (s : MemStorage) (vid : Nat) {node : CommentWithUser}
    (hn : node ∈ getVideoComments s vid) :
    node.comment ∈ s.comments.filter (fun c => c.videoId == vid && c.parentId == none) ∧
    node.replies.map (fun r => r.comment) =
      sortCommentsAsc (s.comments.filter
        (fun r => r.videoId == vid && r.parentId == some node.comment.id)) := by
  unfold getVideoComments at hn
  rcases List.mem_map.1 hn with ⟨c, hcmem, hceq⟩
  have hctop : c ∈ s.comments.filter (fun x => x.videoId == vid && x.parentId == none) := by
    have h2 := hcmem
    unfold sortCommentsDesc at h2
    exact (List.mem_insertionSort _).1 h2
  have hrep : ∀ l : List Comment, (l.map (mkReply s)).map (fun r => r.comment) = l := by
    intro l
    rw [List.map_map]
    refine Eq.trans (List.map_congr_left ?_) (List.map_id' _)
    intro x _
    cases hfu : findUser s x.userId <;> simp [Function.comp, mkReply, hfu]
  have hcomment : node.comment = c := by
    rw [← hceq]
    cases hfu : findUser s c.userId <;> simp [hfu]
  have hreplies : node.replies =
      (sortCommentsAsc ((s.comments.filter
        (fun x => x.videoId == vid && x.parentId != none)).filter
          (fun r => r.parentId == some c.id))).map (mkReply s) := by
    rw [← hceq]
    cases hfu : findUser s c.userId <;> simp [hfu]
  rw [hcomment, hreplies, hrep, replies_filter_eq]
  exact ⟨hctop, rfl⟩

/-- C3: the comment tree lists exactly the video's top-level comments newest
first, each node carrying exactly the video's replies to it oldest first;
replies whose parent id matches no top-level comment of the video appear
nowhere; and on the spec's four-comment example the tree is [C2, C1] with
C1's replies [R2, R1]. -/
theorem claim3_comment_tree :
    (∀ (s : MemStorage) (vid : Nat),
      ((getVideoComments s vid).map (fun n => n.comment)).Perm
        (s.comments.filter (fun c => c.videoId == vid && c.parentId == none)) ∧
      ((getVideoComments s vid).map (fun n => n.comment)).Pairwise commentDescBefore ∧
      (∀ node ∈ getVideoComments s vid,
        node.comment ∈ s.comments.filter (fun c => c.videoId == vid && c.parentId == none) ∧
        (node.replies.map (fun r => r.comment)).Perm
          (s.comments.filter
            (fun r => r.videoId == vid && r.parentId == some node.comment.id)) ∧
        (node.replies.map (fun r => r.comment)).Pairwise commentAscBefore) ∧
      (∀ r ∈ s.comments, r.videoId = vid → ∀ p, r.parentId = some p →
        (∀ t ∈ s.comments.filter (fun c => c.videoId == vid && c.parentId == none),
          t.id ≠ p) →
        ∀ node ∈ getVideoComments s vid,
          node.comment ≠ r ∧ r ∉ node.replies.map (fun x => x.comment))) ∧
    getVideoComments exStateC3 1 =
      [{ comment := exComment 2 1 1 none 20, user := userSummaryOf exUser1, replies := [] },
       { comment := exComment 1 1 1 none 10, user := userSummaryOf exUser1
         replies := [{ comment := exComment 4 1 1 (some 1) 12, user := userSummaryOf exUser1 },
                     { comment := exComment 3 1 1 (some 1) 15, user := userSummaryOf exUser1 }] }] := by
  constructor
  · intro s vid
    refine ⟨?_, ?_, ?_, ?_⟩
    · rw [getVideoComments_map_comment]
      exact List.perm_insertionSort _ _
    · rw [getVideoComments_map_comment]
      exact List.sorted_insertionSort _ _
    · intro node hn
      obtain ⟨htop, hrep⟩ := getVideoComments_node s vid hn
      refine ⟨htop, ?_, ?_⟩
      · rw [hrep]
        exact List.perm_insertionSort _ _
      · rw [hrep]
        exact List.sorted_insertionSort _ _
    · intro r hr hrvid p hrp hnp node hn
      obtain ⟨htop, hrep⟩ := getVideoComments_node s vid hn
      have hnodetop := List.of_mem_filter htop
      constructor
      · intro heq
        rw [heq] at hnodetop
        simp only [Bool.and_eq_true, beq_iff_eq] at hnodetop
        rw [hnodetop.2] at hrp
        cases hrp
      · intro hmem
        rw [hrep] at hmem
        unfold sortCommentsAsc at hmem
        have hrfil := (List.mem_insertionSort _).1 hmem
        have hpred := List.of_mem_filter hrfil
        simp only [Bool.and_eq_true, beq_iff_eq] at hpred
        rw [hrp] at hpred
        have hpid : p = node.comment.id := by
          have := hpred.2
          injection this
        exact hnp node.comment htop hpid.symm
  · decide

/-! Claim C9: the video listing. -/

/-- Projecting the joined page back to videos gives the sorted page slice. -/
theorem getVideos_map_video (s : MemStorage) (limit offset : Nat) :
    (getVideos s limit offset).map (fun n => n.video) =
      ((sortVideosDesc s.videos).drop offset).take limit := by
  unfold getVideos
  rw [List.map_map]
  refine Eq.trans (List.map_congr_left ?_) (List.map_id' _)
  intro v _
  simp [Function.comp]

/-- C9: the page is the newest-first stable sort of the video table with
`offset` rows skipped and at most `limit` rows kept; ties keep insertion
order; an offset at or past the end yields the empty page rather than an
error; a page shorter than `limit` happens exactly when the table is
exhausted (`length = min limit (total - offset)`); every row carries its
author's projection when the author exists. -/
theorem claim9_getVideos_pagination (s : MemStorage) (limit offset : Nat) :
    (getVideos s limit offset).map (fun n => n.video) =
      ((sortVideosDesc s.videos).drop offset).take limit ∧
    (sortVideosDesc s.videos).Perm s.videos ∧
    (sortVideosDesc s.videos).Pairwise videoBefore ∧
    (∀ k : Nat, (sortVideosDesc s.videos).filter (fun v => dateKey v.createdAt == k) =
      s.videos.filter (fun v => dateKey v.createdAt == k)) ∧
    (getVideos s limit offset).length = min limit (s.videos.length - offset) ∧
    (s.videos.length ≤ offset → getVideos s limit offset = []) ∧
    (∀ node ∈ getVideos s limit offset, node.video ∈ s.videos ∧
      ∀ u, findUser s node.video.userId = some u → node.user = userSummaryOf u) := by
  refine ⟨getVideos_map_video s limit offset, List.perm_insertionSort _ _,
    List.sorted_insertionSort _ _, ?_, ?_, ?_, ?_⟩
  · intro k
    exact insertionSort_filter_key s.videos (fun v => dateKey v.createdAt == k)
      (fun a b ha hb => by
        have hka : dateKey a.createdAt = k := beq_iff_eq.1 ha
        have hkb : dateKey b.createdAt = k := beq_iff_eq.1 hb
        unfold videoBefore
        rw [hka, hkb])
  · have h := congrArg List.length (getVideos_map_video s limit offset)
    rw [List.length_map, List.length_take, List.length_drop] at h
    rw [h]
    unfold sortVideosDesc
    rw [List.length_insertionSort]
  · intro hoff
    unfold getVideos
    have hnil : (sortVideosDesc s.videos).drop offset = [] := by
      apply List.drop_eq_nil_of_le
      unfold sortVideosDesc
      rw [List.length_insertionSort]
      exact hoff
    rw [hnil]
    simp
  · intro node hn
    unfold getVideos at hn
    rcases List.mem_map.1 hn with ⟨v, hvmem, hveq⟩
    have hvs : v ∈ s.videos := by
      have h1 := List.mem_of_mem_take hvmem
      have h2 := List.mem_of_mem_drop h1
      unfold sortVideosDesc at h2
      exact (List.mem_insertionSort _).1 h2
    have hvideo : node.video = v := by rw [← hveq]
    constructor
    · rw [hvideo]; exact hvs
    · intro u hfu
      rw [← hveq]
      rw [hvideo] at hfu
      simp only [videoAuthorOf, hfu]

/-- C9 witness: on the three-video fixture, page (limit 2, offset 0) is the
two newest videos with the tie kept in insertion order, and offset 3 is the
empty page. -/
theorem claim9_witness :
    ((getVideos exStateC9 2 0).map (fun n => n.video)).map (fun v => v.id) = [1, 3] ∧
    getVideos exStateC9 2 3 = [] := by
  have h1 := claim9_getVideos_pagination exStateC9 2 0
  have h2 := claim9_getVideos_pagination exStateC9 2 3
  refine ⟨?_, h2.2.2.2.2.2.1 (by decide)⟩
  rw [h1.1]
  decide

/-! Claim C5: missing authors — sentinel in the in-memory listing, silent
omission in the database-backed listing. -/

/-- The author and reply list carried by each node of the in-memory tree. -/
theorem getVideoComments_node_user (s : MemStorage) (vid : Nat) {node : CommentWithUser}
    (hn : node ∈ getVideoComments s vid) :
    node.user = userSummaryOrUnknown s node.comment.userId ∧
    node.replies = (sortCommentsAsc (s.comments.filter
      (fun r => r.videoId == vid && r.parentId == some node.comment.id))).map (mkReply s) := by
  unfold getVideoComments at hn
  rcases List.mem_map.1 hn with ⟨c, hcmem, hceq⟩
  have hcomment : node.comment = c := by
    rw [← hceq]
    cases hfu : findUser s c.userId <;> simp [hfu]
  rw [hcomment, ← replies_filter_eq]
  rw [← hceq]
  cases hfu : findUser s c.userId <;> simp [userSummaryOrUnknown, hfu]

/-- C5 (amended): in the in-memory listing every node and reply whose author
row is missing carries the sentinel author, and every top-level comment of the
video appears whether or not its author exists; in the database-backed listing
(the storage the server exports) a comment whose author row is missing is
silently omitted from the tree at both levels. -/
theorem claim5_sentinel_vs_innerJoin :
    (∀ (s : MemStorage) (vid : Nat), ∀ node ∈ getVideoComments s vid,
      (findUser s node.comment.userId = none → node.user = unknownUser) ∧
      ∀ r ∈ node.replies, findUser s r.comment.userId = none → r.user = unknownUser) ∧
    (∀ (s : MemStorage) (vid : Nat) (c : Comment), c ∈ s.comments → c.videoId = vid →
      c.parentId = none → ∃ node ∈ getVideoComments s vid, node.comment = c) ∧
    (∀ (s : MemStorage) (vid : Nat) (c : Comment), c ∈ s.comments →
      findUser s c.userId = none →
      ∀ node ∈ dbGetVideoComments s vid,
        node.comment ≠ c ∧ ∀ r ∈ node.replies, r.comment ≠ c) := by
  refine ⟨?_, ?_, ?_⟩
  · intro s vid node hn
    obtain ⟨huser, hreplies⟩ := getVideoComments_node_user s vid hn
    constructor
    · intro hfu
      rw [huser]
      simp [userSummaryOrUnknown, hfu]
    · intro r hr hfu
      rw [hreplies] at hr
      rcases List.mem_map.1 hr with ⟨x, _, hxeq⟩
      have hrc : r.comment = x := by
        rw [← hxeq]
        cases h2 : findUser s x.userId <;> simp [mkReply, h2]
      rw [hrc] at hfu
      rw [← hxeq]
      simp [mkReply, hfu]
  · intro s vid c hc hcv hcp
    have hctop : c ∈ s.comments.filter (fun x => x.videoId == vid && x.parentId == none) :=
      List.mem_filter.2 ⟨hc, by simp [hcv, hcp]⟩
    have hcs : c ∈ sortCommentsDesc (s.comments.filter
        (fun x => x.videoId == vid && x.parentId == none)) := by
      unfold sortCommentsDesc
      exact (List.mem_insertionSort _).2 hctop
    unfold getVideoComments
    refine ⟨_, List.mem_map_of_mem _ hcs, ?_⟩
    cases h2 : findUser s c.userId <;> simp [h2]
  · intro s vid c hc hfu node hn
    have hrows : ∀ cu ∈ (sortCommentsDesc (s.comments.filter
        (fun x => x.videoId == vid))).filterMap
          (fun x => (findUser s x.userId).map (fun u => (x, u))), cu.1 ≠ c := by
      intro cu hcu hc1
      rcases List.mem_filterMap.1 hcu with ⟨x, _, hxeq⟩
      rcases Option.map_eq_some'.1 hxeq with ⟨u, hxu, hcueq⟩
      have hx1 : cu.1 = x := by rw [← hcueq]
      rw [hc1] at hx1
      rw [← hx1] at hxu
      rw [hfu] at hxu
      cases hxu
    unfold dbGetVideoComments at hn
    rcases List.mem_map.1 hn with ⟨cu, hcumem, hcueq⟩
    have hcurow := List.mem_of_mem_filter hcumem
    constructor
    · have hnc : node.comment = cu.1 := by rw [← hcueq]
      rw [hnc]
      exact hrows cu hcurow
    · intro r hr
      have hnr : node.replies = ((((sortCommentsDesc (s.comments.filter
          (fun x => x.videoId == vid))).filterMap
            (fun x => (findUser s x.userId).map (fun u => (x, u)))).filter
              (fun p => p.1.parentId == some cu.1.id)).insertionSort rowAscBefore).map
                (fun p => { comment := p.1, user := userSummaryOf p.2 : ReplyWithUser }) := by
        rw [← hcueq]
      rw [hnr] at hr
      rcases List.mem_map.1 hr with ⟨p, hpmem, hpeq⟩
      have hp2 := (List.mem_insertionSort _).1 hpmem
      have hp3 := List.mem_of_mem_filter hp2
      have hrc : r.comment = p.1 := by rw [← hpeq]
      rw [hrc]
      exact hrows p hp3

/-- C5 counterexample: the active, database-backed listing does not surface a
comment whose author row is missing — the inner join drops it — although the
comment is persisted (the in-memory listing would show it with the sentinel).
This refutes the claim that such a comment still appears in the listing. -/
theorem claim5_counterexample :
    (∃ node ∈ getVideoComments exStateC5 1,
        node.comment.id = 7 ∧ node.user = unknownUser) ∧
    dbGetVideoComments exStateC5 1 = [] := by
  decide

/-- C5 witness: on the missing-author fixture, the in-memory node for
comment 7 carries the sentinel, and the database-backed tree omits it. -/
theorem claim5_witness :
    (∀ node ∈ getVideoComments exStateC5 1,
      findUser exStateC5 node.comment.userId = none → node.user = unknownUser) ∧
    (∀ node ∈ dbGetVideoComments exStateC5 1, node.comment ≠ exComment 7 1 99 none 10) := by
  constructor
  · intro node hn hfu
    exact ((claim5_sentinel_vs_innerJoin.1 exStateC5 1 node hn).1 hfu)
  · intro node hn
    exact (claim5_sentinel_vs_innerJoin.2.2 exStateC5 1 (exComment 7 1 99 none 10)
      (by decide) (by decide) node hn).1

/-! Claim C6: follower/following counters track the Follow relation. -/

/-- Mapping an id-preserving function keeps user ids pairwise distinct. -/
theorem usersUniq_map {l : List User} (g : User → User)
    (hg : ∀ u, (g u).id = u.id) (hu : l.Pairwise (fun a b => a.id ≠ b.id)) :
    (l.map g).Pairwise (fun a b => a.id ≠ b.id) := by
  rw [List.pairwise_map]
  exact hu.imp (fun hxy => by rw [hg, hg]; exact hxy)

/-- Two keyed first-updates over uniquely-keyed users collapse to one map. -/
theorem users_double_update {l : List User} (k1 k2 : Nat) (g1 g2 : User → User)
    (hid1 : ∀ u, (g1 u).id = u.id)
    (hu : l.Pairwise (fun a b => a.id ≠ b.id)) :
    updateFirst (fun u => u.id == k2) g2 (updateFirst (fun u => u.id == k1) g1 l) =
      l.map (fun u =>
        (fun x => if x.id == k2 then g2 x else x)
          ((fun x => if x.id == k1 then g1 x else x) u)) := by
  rw [updateFirst_key_eq_map k1 g1 hu]
  rw [updateFirst_key_eq_map k2 g2 (usersUniq_map _
    (fun u => by by_cases h : (u.id == k1) = true <;> simp [h, hid1]) hu)]
  rw [List.map_map]
  rfl

/-- Effect of a fresh `follow` on the incoming-row count of any user. -/
theorem followerRows_follow_none {s : MemStorage} {a b : Nat} (n : Nat)
    (h : s.follows.find? (fun f => f.followerId == a && f.followingId == b) = none)
    (uid : Nat) :
    followerRows (follow s a b n).2 uid =
      followerRows s uid + (if b = uid then 1 else 0) := by
  obtain ⟨hret, hfl, _, _, _, _⟩ := follow_of_find?_none s a b n h
  unfold followerRows
  rw [hfl, List.filter_append, List.length_append, hret]
  by_cases hb : b = uid <;> simp [List.filter_cons, hb]

/-- Effect of a fresh `follow` on the outgoing-row count of any user. -/
theorem followingRows_follow_none {s : MemStorage} {a b : Nat} (n : Nat)
    (h : s.follows.find? (fun f => f.followerId == a && f.followingId == b) = none)
    (uid : Nat) :
    followingRows (follow s a b n).2 uid =
      followingRows s uid + (if a = uid then 1 else 0) := by
  obtain ⟨hret, hfl, _, _, _, _⟩ := follow_of_find?_none s a b n h
  unfold followingRows
  rw [hfl, List.filter_append, List.length_append, hret]
  by_cases ha : a = uid <;> simp [List.filter_cons, ha]

/-- `follow` preserves the C6 invariant. -/
theorem follow_preserves_inv (s : MemStorage) (a b n : Nat) (h : FollowInv s) :
    FollowInv (follow s a b n).2 := by
  obtain ⟨hus, hfs, hcnt⟩ := h
  cases hfind : s.follows.find? (fun f => f.followerId == a && f.followingId == b) with
  | some f0 =>
      rw [follow_of_find?_some s a b n f0 hfind]
      exact ⟨hus, hfs, hcnt⟩
  | none =>
      obtain ⟨hret, hfl, husers, _, _, _⟩ := follow_of_find?_none s a b n hfind
      have hmap := users_double_update a b incFollowing incFollowers (fun _ => rfl) hus
      refine ⟨?_, ?_, ?_⟩
      · unfold UsersUniq
        rw [husers, hmap]
        apply usersUniq_map _ ?_ hus
        intro u
        by_cases h1 : (u.id == a) = true <;> by_cases h2 : (u.id == b) = true <;>
          simp [incFollowing, incFollowers, h1, h2]
      · unfold FollowsUniq
        rw [hfl]
        rw [List.pairwise_append]
        refine ⟨hfs, List.pairwise_singleton _ _, ?_⟩
        intro f hf g hg
        have hgl : g = (follow s a b n).1 := List.mem_singleton.1 hg
        have hnp := List.find?_eq_none.1 hfind f hf
        simp only [Bool.and_eq_true, beq_iff_eq] at hnp
        rw [hgl, hret]
        intro hcon
        exact hnp ⟨hcon.1, hcon.2⟩
      · intro w hw
        rw [husers, hmap] at hw
        rcases List.mem_map.1 hw with ⟨u, hu, rfl⟩
        have hcu := hcnt u hu
        have hbig : ((fun x => if x.id == b then incFollowers x else x)
            ((fun x => if x.id == a then incFollowing x else x) u)) =
            { u with
                followersCount := if u.id = b then u.followersCount + 1 else u.followersCount
                followingCount := if u.id = a then u.followingCount + 1 else u.followingCount } := by
          by_cases h1 : u.id = a <;> by_cases h2 : u.id = b
          · simp [incFollowing, incFollowers, h1, h2, h1.symm.trans h2]
          · have hab2 : ¬(a = b) := fun hh => h2 (h1.trans hh)
            simp [incFollowing, incFollowers, h1, h2, hab2]
          · have hab2 : ¬(b = a) := fun hh => h1 (h2.trans hh)
            simp [incFollowing, incFollowers, h1, h2, hab2]
          · simp [incFollowing, incFollowers, h1, h2]
        constructor
        · rw [followerRows_follow_none n hfind]
          simp only [hbig]
          by_cases h2 : u.id = b
          · rw [if_pos h2, if_pos h2.symm, hcu.1]
            push_cast
            omega
          · rw [if_neg h2, if_neg (fun hh => h2 hh.symm), hcu.1]
            simp
        · rw [followingRows_follow_none n hfind]
          simp only [hbig]
          by_cases h1 : u.id = a
          · rw [if_pos h1, if_pos h1.symm, hcu.2]
            push_cast
            omega
          · rw [if_neg h1, if_neg (fun hh => h1 hh.symm), hcu.2]
            simp

/-- Unfolding of `unfollow` when the relation exists. -/
theorem unfollow_of_find?_some (s : MemStorage) (a b : Nat) (f0 : Follow)
    (h : s.follows.find? (fun f => f.followerId == a && f.followingId == b) = some f0) :
    (unfollow s a b).2.follows =
      s.follows.filter (fun f => !(f.followerId == a && f.followingId == b)) ∧
    (unfollow s a b).2.users =
      updateFirst (fun u => u.id == b) decFollowers
        (updateFirst (fun u => u.id == a) decFollowing s.users) ∧
    (unfollow s a b).2.videos = s.videos ∧
    (unfollow s a b).2.comments = s.comments := by
  unfold unfollow
  rw [h]
  exact ⟨rfl, rfl, rfl, rfl⟩

/-- Removing the unique `(a, b)` row: for any predicate, the count over the
filtered rows plus the removed row's contribution is the original count. -/
theorem countP_filter_not_pair {l : List Follow} {a b : Nat} {f0 : Follow}
    (hu : l.Pairwise
      (fun x y => ¬(x.followerId = y.followerId ∧ x.followingId = y.followingId)))
    (hf0 : l.find? (fun f => f.followerId == a && f.followingId == b) = some f0)
    (q : Follow → Bool) :
    (l.filter (fun f => !(f.followerId == a && f.followingId == b))).countP q +
      (if q f0 = true then 1 else 0) = l.countP q := by
  induction l with
  | nil => cases hf0
  | cons x xs ih =>
      rcases List.pairwise_cons.1 hu with ⟨hx, hxs⟩
      by_cases hpx : (x.followerId == a && x.followingId == b) = true
      · have hfx : (x :: xs).find? (fun f => f.followerId == a && f.followingId == b) =
            some x := List.find?_cons_of_pos _ hpx
        rw [hfx] at hf0
        have hx0 : f0 = x := (Option.some_inj.1 hf0).symm
        have hpx2 := hpx
        simp only [Bool.and_eq_true, beq_iff_eq] at hpx2
        have hxs_no : ∀ y ∈ xs,
            (y.followerId == a && y.followingId == b) = false := by
          intro y hy
          have hxy := hx y hy
          rw [Bool.eq_false_iff]
          intro hc
          rw [Bool.and_eq_true, beq_iff_eq, beq_iff_eq] at hc
          exact hxy ⟨hpx2.1.trans hc.1.symm, hpx2.2.trans hc.2.symm⟩
        have hfilter : xs.filter (fun f => !(f.followerId == a && f.followingId == b)) = xs :=
          List.filter_eq_self.2 (fun y hy => by simp [hxs_no y hy])
        rw [List.filter_cons_of_neg (by simp [hpx]), hfilter, hx0, List.countP_cons]
      · have hf0t : xs.find? (fun f => f.followerId == a && f.followingId == b) = some f0 := by
          rw [List.find?_cons_of_neg _ (by simp [hpx])] at hf0
          exact hf0
        have hih := ih hxs hf0t
        rw [List.filter_cons_of_pos (by simp [hpx]), List.countP_cons, List.countP_cons]
        omega

/-- `unfollow` preserves the C6 invariant. -/
theorem unfollow_preserves_inv (s : MemStorage) (a b : Nat) (h : FollowInv s) :
    FollowInv (unfollow s a b).2 := by
  obtain ⟨hus, hfs, hcnt⟩ := h
  cases hfind : s.follows.find? (fun f => f.followerId == a && f.followingId == b) with
  | none =>
      have hsame : (unfollow s a b).2 = s := by
        unfold unfollow
        rw [hfind]
      rw [hsame]
      exact ⟨hus, hfs, hcnt⟩
  | some f0 =>
      obtain ⟨hfl, husers, _, _⟩ := unfollow_of_find?_some s a b f0 hfind
      have hf0mem : f0 ∈ s.follows := List.mem_of_find?_eq_some hfind
      have hf0p := List.find?_some hfind
      simp only [Bool.and_eq_true, beq_iff_eq] at hf0p
      have hmap := users_double_update a b decFollowing decFollowers
        (fun u => by unfold decFollowing; split_ifs <;> rfl) hus
      have hrowF : ∀ uid : Nat, followerRows (unfollow s a b).2 uid
          + (if b = uid then 1 else 0) = followerRows s uid := by
        intro uid
        unfold followerRows
        rw [hfl, ← List.countP_eq_length_filter, ← List.countP_eq_length_filter]
        have hcp := countP_filter_not_pair hfs hfind (fun f => f.followingId == uid)
        by_cases hb : b = uid
        · have hq : (f0.followingId == uid) = true := by
            simp [hf0p.2, hb]
          rw [hq] at hcp
          simpa [hb] using hcp
        · have hq : (f0.followingId == uid) = false := by
            simp [hf0p.2, hb]
          rw [hq] at hcp
          simpa [hb] using hcp
      have hrowG : ∀ uid : Nat, followingRows (unfollow s a b).2 uid
          + (if a = uid then 1 else 0) = followingRows s uid := by
        intro uid
        unfold followingRows
        rw [hfl, ← List.countP_eq_length_filter, ← List.countP_eq_length_filter]
        have hcp := countP_filter_not_pair hfs hfind (fun f => f.followerId == uid)
        by_cases ha : a = uid
        · have hq : (f0.followerId == uid) = true := by
            simp [hf0p.1, ha]
          rw [hq] at hcp
          simpa [ha] using hcp
        · have hq : (f0.followerId == uid) = false := by
            simp [hf0p.1, ha]
          rw [hq] at hcp
          simpa [ha] using hcp
      refine ⟨?_, ?_, ?_⟩
      · unfold UsersUniq
        rw [husers, hmap]
        apply usersUniq_map _ ?_ hus
        intro u
        by_cases h1 : (u.id == a) = true <;> by_cases h2 : (u.id == b) = true <;>
          simp only [h1, h2, if_true, if_false] <;>
          unfold decFollowing decFollowers <;> split_ifs <;> rfl
      · unfold FollowsUniq
        rw [hfl]
        exact List.Pairwise.sublist (List.filter_sublist _) hfs
      · intro w hw
        rw [husers, hmap] at hw
        rcases List.mem_map.1 hw with ⟨u, hu, rfl⟩
        have hcu := hcnt u hu
        have hidG : ∀ x : User, (decFollowing x).id = x.id := by
          intro x
          unfold decFollowing
          split_ifs <;> rfl
        have hidF : ∀ x : User, (decFollowers x).id = x.id := by
          intro x
          unfold decFollowers
          split_ifs <;> rfl
        have hfcG : ∀ x : User, (decFollowing x).followersCount = x.followersCount := by
          intro x
          unfold decFollowing
          split_ifs <;> rfl
        have hgcF : ∀ x : User, (decFollowers x).followingCount = x.followingCount := by
          intro x
          unfold decFollowers
          split_ifs <;> rfl
        have hdecF : ∀ x : User, (decFollowers x).followersCount =
            (if 0 < x.followersCount then x.followersCount - 1 else x.followersCount) := by
          intro x
          unfold decFollowers
          split_ifs <;> rfl
        have hdecG : ∀ x : User, (decFollowing x).followingCount =
            (if 0 < x.followingCount then x.followingCount - 1 else x.followingCount) := by
          intro x
          unfold decFollowing
          split_ifs <;> rfl
        have hid : ((fun x => if x.id == b then decFollowers x else x)
            ((fun x => if x.id == a then decFollowing x else x) u)).id = u.id := by
          by_cases h1 : (u.id == a) = true <;> by_cases h2 : (u.id == b) = true <;>
            simp [h1, h2, hidG, hidF]
        constructor
        · by_cases h2 : (u.id == b) = true
          · have h2e : u.id = b := beq_iff_eq.1 h2
            have hval : ((fun x => if x.id == b then decFollowers x else x)
                ((fun x => if x.id == a then decFollowing x else x) u)).followersCount =
                (if 0 < u.followersCount then u.followersCount - 1
                 else u.followersCount) := by
              by_cases h1 : (u.id == a) = true <;>
                simp [h1, h2, hidG, hdecF, hfcG]
            simp only [hval, hid]
            have hrow := hrowF u.id
            rw [if_pos h2e.symm] at hrow
            have hge : 0 < followerRows s u.id := by
              have hf0in : f0 ∈ s.follows.filter (fun f => f.followingId == u.id) :=
                List.mem_filter.2 ⟨hf0mem, by simp [hf0p.2, h2e]⟩
              unfold followerRows
              exact List.length_pos_of_mem hf0in
            rw [hcu.1, if_pos (Int.natCast_pos.2 hge)]
            omega
          · have h2e : ¬(u.id = b) := by simpa using h2
            have hval : ((fun x => if x.id == b then decFollowers x else x)
                ((fun x => if x.id == a then decFollowing x else x) u)).followersCount =
                u.followersCount := by
              by_cases h1 : (u.id == a) = true <;> simp [h1, h2, hidG, hfcG]
            simp only [hval, hid]
            have hrow := hrowF u.id
            rw [if_neg (fun hh => h2e hh.symm)] at hrow
            rw [hcu.1]
            omega
        · by_cases h1 : (u.id == a) = true
          · have h1e : u.id = a := beq_iff_eq.1 h1
            have hval : ((fun x => if x.id == b then decFollowers x else x)
                ((fun x => if x.id == a then decFollowing x else x) u)).followingCount =
                (if 0 < u.followingCount then u.followingCount - 1
                 else u.followingCount) := by
              by_cases h2 : (u.id == b) = true <;>
                simp [h1, h2, hidG, hdecG, hgcF]
            simp only [hval, hid]
            have hrow := hrowG u.id
            rw [if_pos h1e.symm] at hrow
            have hge : 0 < followingRows s u.id := by
              have hf0in : f0 ∈ s.follows.filter (fun f => f.followerId == u.id) :=
                List.mem_filter.2 ⟨hf0mem, by simp [hf0p.1, h1e]⟩
              unfold followingRows
              exact List.length_pos_of_mem hf0in
            rw [hcu.2, if_pos (Int.natCast_pos.2 hge)]
            omega
          · have h1e : ¬(u.id = a) := by simpa using h1
            have hval : ((fun x => if x.id == b then decFollowers x else x)
                ((fun x => if x.id == a then decFollowing x else x) u)).followingCount =
                u.followingCount := by
              by_cases h2 : (u.id == b) = true <;> simp [h1, h2, hidG, hgcF]
            simp only [hval, hid]
            have hrow := hrowG u.id
            rw [if_neg (fun hh => h1e hh.symm)] at hrow
            rw [hcu.2]
            omega

/-- Every sequence of follow-subsystem calls preserves the C6 invariant. -/
theorem applyFollowOps_preserves_inv (ops : List FollowOp) (s : MemStorage)
    (h : FollowInv s) : FollowInv (applyFollowOps s ops) := by
  induction ops generalizing s with
  | nil => exact h
  | cons op rest ih =>
      have hstep : FollowInv (applyFollowOp s op) := by
        cases op with
        | doFollow a b now => exact follow_preserves_inv s a b now h
        | doUnfollow a b => exact unfollow_preserves_inv s a b h
      exact ih (applyFollowOp s op) hstep

/-- C6: starting from any store whose user ids are distinct, whose Follow
rows are unique per pair, and whose counters match the relation, after any
sequence of `follow`/`unfollow` calls every user's `followersCount` equals
the number of persisted Follow rows pointing at them and `followingCount`
the number going out of them, and neither counter is negative. -/
theorem claim6_follow_counters (s : MemStorage) (ops : List FollowOp)
    (h : FollowInv s) :
    ∀ u ∈ (applyFollowOps s ops).users,
      u.followersCount = (followerRows (applyFollowOps s ops) u.id : Int) ∧
      u.followingCount = (followingRows (applyFollowOps s ops) u.id : Int) ∧
      0 ≤ u.followersCount ∧ 0 ≤ u.followingCount := by
  have hinv := applyFollowOps_preserves_inv ops s h
  intro u hu
  obtain ⟨h1, h2⟩ := hinv.2.2 u hu
  refine ⟨h1, h2, ?_, ?_⟩
  · rw [h1]
    exact Int.natCast_nonneg _
  · rw [h2]
    exact Int.natCast_nonneg _

/-- C6 witness: on the two-user fixture, after follow 1→2, a duplicate
follow 1→2, follow 2→1 and unfollow 1→2, user 1 ends with one follower,
matching the single remaining Follow row, and the counter is non-negative. -/
theorem claim6_witness :
    ({ exUser1 with followersCount := 1 } : User).followersCount =
      (followerRows (applyFollowOps exStateUsers exFollowTrace) 1 : Int) ∧
    ({ exUser1 with followersCount := 1 } : User).followingCount =
      (followingRows (applyFollowOps exStateUsers exFollowTrace) 1 : Int) ∧
    0 ≤ ({ exUser1 with followersCount := 1 } : User).followersCount := by
  have h := claim6_follow_counters exStateUsers exFollowTrace (by decide)
    { exUser1 with followersCount := 1 } (by decide)
  exact ⟨h.1, h.2.1, h.2.2.1⟩

/-- C2 witness: with five AdView rows already recorded for the session and
day, the handler answers "no ad" and leaves the store untouched even though
the lucky draw came up true. -/
theorem claim2_witness :
    adsRandomHandler exStateAds5 none "sess" "d1" true 0 9 =
      (AdResponse.noAd, exStateAds5) := by
  have h := claim2_ad_cap_and_view_row exStateAds5 none "sess" "d1" true 0 9
    (adsRandomHandler exStateAds5 none "sess" "d1" true 0 9) rfl
  exact h.1 (by decide)

/-- C3 witness: on the spec's four-comment fixture, the nodes of the tree are
a permutation of the video's top-level comments. -/
theorem claim3_witness :
    ((getVideoComments exStateC3 1).map (fun n => n.comment)).Perm
      (exStateC3.comments.filter (fun c => c.videoId == 1 && c.parentId == none)) :=
  (claim3_comment_tree.1 exStateC3 1).1

/-- C7 witness: a self-follow request by user 1 on the two-user fixture is
rejected with the store unchanged. -/
theorem claim7_witness :
    followHandler exStateUsers 1 1 5 = (FollowResponse.cannotFollowSelf, exStateUsers) :=
  claim7_selfFollow_rejected exStateUsers 1 5

end VideoApp
